import Mathlib

/-!
Shallow embedding of the `czds` Go client (`requests.go`): status constants,
the data model (`TLDStatus`, `RequestSubmission`, `Terms`, `RequestsResponse`),
the orchestration helpers `RequestTLDs` / `RequestAllTLDs` modelled over an
explicit remote environment with a call trace, the report download
`DownloadAllRequests` modelled over an explicit transport, and the JSON
encoding of `RequestSubmission` (Go `encoding/json` struct-tag semantics,
including `omitempty` and the `additionalFtfIps` tag).
-/

/-- Go errors are opaque to this client; we model them by their message. -/
abbrev GoError := String

/-- Timestamps (`time.Time`) modelled as unix instants; epoch 0 is the
"no expiration" sentinel. -/
abbrev Timestamp := Int

/- Status constants from `requests.go` (`Status*`, used by
`TLDStatus.CurrentStatus`). -/

def StatusAvailable : String := "available"

def StatusSubmitted : String := "submitted"

def StatusPending : String := "pending"

def StatusApproved : String := "approved"

def StatusDenied : String := "denied"

def StatusExpired : String := "expired"

def StatusRevoked : String := "revoked"

/-- `TLDStatus` from `requests.go`: information about a particular TLD
returned from `GetTLDStatus()`. -/
structure TLDStatus where
  TLD : String
  ULabel : String
  CurrentStatus : String
  SFTP : Bool
deriving DecidableEq, Repr

/-- `Terms` from `requests.go`: the terms and conditions from `GetTerms()`. -/
structure Terms where
  Version : String
  Content : String
  ContentURL : String
  Created : Timestamp
deriving DecidableEq, Repr

/-- `RequestSubmission` from `requests.go`: payload for `SubmitRequest()`. -/
structure RequestSubmission where
  AllTLDs : Bool
  TLDNames : List String
  Reason : String
  TcVersion : String
  AdditionalFTPIps : List String
deriving DecidableEq, Repr

/-- `Request` from `requests.go`: one entry of `RequestsResponse`. -/
structure Request where
  RequestID : String
  TLD : String
  ULabel : String
  Status : String
  Created : Timestamp
  LastUpdated : Timestamp
  Expired : Timestamp
  SFTP : Bool
deriving DecidableEq, Repr

/-- `RequestsResponse` from `requests.go`. `Requests` is a Go slice that the
zero value leaves `nil`; we model it as `Option (List Request)` so that a
`nil`/absent sequence (`none`) is distinguishable from a present empty one
(`some []`). -/
structure RequestsResponse where
  Requests : Option (List Request)
  TotalRequests : Int
deriving DecidableEq, Repr

/-- The remote calls a client invocation can make, as observable events.
`submitRequest` records the payload handed to `SubmitRequest`. -/
inductive RemoteCall where
  | getTLDStatus : RemoteCall
  | getTerms : RemoteCall
  | submitRequest (r : RequestSubmission) : RemoteCall
deriving DecidableEq, Repr

/-- One invocation's view of the remote side (the `jsonAPI` collaborator):
what each endpoint would answer if called during this invocation. -/
structure RemoteEnv where
  tldStatusResult : Except GoError (List TLDStatus)
  termsResult : Except GoError Terms
  submitResult : Option GoError

/-- The eligibility switch of `RequestAllTLDs` (`requests.go` lines 228-231):
`case StatusAvailable, StatusExpired, StatusDenied, StatusRevoked`. -/
def eligibleStatus (s : String) : Bool :=
  s == StatusAvailable || s == StatusExpired || s == StatusDenied || s == StatusRevoked

/-- The accumulation loop of `RequestAllTLDs` (`requests.go` lines 226-232):
append `tld.TLD` for each entry whose `CurrentStatus` matches the switch. -/
def collectEligible : List TLDStatus → List String
  | [] => []
  | t :: rest =>
      if eligibleStatus t.CurrentStatus then t.TLD :: collectEligible rest
      else collectEligible rest

/-- `RequestTLDs` from `requests.go` (lines 201-216): fetch terms, then
submit a `RequestSubmission` carrying `terms.Version`. Result is the Go
`error` return paired with the trace of remote calls made. -/
def RequestTLDs (env : RemoteEnv) (tlds : List String) (reason : String) :
    Option GoError × List RemoteCall :=
  match env.termsResult with
  | .error e => (some e, [.getTerms])
  | .ok terms =>
      let request : RequestSubmission :=
        { AllTLDs := false, TLDNames := tlds, Reason := reason,
          TcVersion := terms.Version, AdditionalFTPIps := [] }
      (env.submitResult, [.getTerms, .submitRequest request])

/-- `RequestAllTLDs` from `requests.go` (lines 219-253): list TLD statuses,
filter the eligible ones, short-circuit if none, else fetch terms and submit.
Result is the Go `([]string, error)` return (a `nil` slice is `none`) paired
with the trace of remote calls made. -/
def RequestAllTLDs (env : RemoteEnv) (reason : String) :
    (Option (List String) × Option GoError) × List RemoteCall :=
  match env.tldStatusResult with
  | .error e => ((none, some e), [.getTLDStatus])
  | .ok status =>
      let requestTLDs := collectEligible status
      if requestTLDs = [] then ((some requestTLDs, none), [.getTLDStatus])
      else
        match env.termsResult with
        | .error e => ((none, some e), [.getTLDStatus, .getTerms])
        | .ok terms =>
            let request : RequestSubmission :=
              { AllTLDs := true, TLDNames := requestTLDs, Reason := reason,
                TcVersion := terms.Version, AdditionalFTPIps := [] }
            ((some requestTLDs, env.submitResult),
             [.getTLDStatus, .getTerms, .submitRequest request])

/-- The body of a successful `apiRequest` response: the byte stream the
transport returns. -/
structure HTTPResponse where
  body : List UInt8
deriving DecidableEq, Repr

/-- One invocation's view of the transport for `DownloadAllRequests`: the
result of `apiRequest`, plus the behaviour of the copy stream.
`copyFailAfter = some (k, e)` with `k` less than the body length means the
stream fails with error `e` after `k` bytes have been written to the sink;
otherwise the copy runs to completion. -/
structure DownloadEnv where
  BaseURL : String
  apiRequestResult : Except GoError HTTPResponse
  copyFailAfter : Option (Nat × GoError)

/-- `io.Copy output body`: the bytes actually written to the sink, the byte
count `n` it returns, and the copy error if any. -/
def ioCopy (body : List UInt8) (failAfter : Option (Nat × GoError)) :
    List UInt8 × Nat × Option GoError :=
  match failAfter with
  | some (k, e) =>
      if k < body.length then (body.take k, k, some e)
      else (body, body.length, none)
  | none => (body, body.length, none)

/-- `DownloadAllRequests` from `requests.go` (lines 180-197), over the given
initial sink content: propagate an `apiRequest` error; copy the body to the
sink; propagate a copy error; report `"<url> was empty"` when zero bytes
were copied. Returns the final sink content and the Go `error` return. -/
def DownloadAllRequests (env : DownloadEnv) (sink : List UInt8) :
    List UInt8 × Option GoError :=
  let url := env.BaseURL ++ "/czds/requests/report"
  match env.apiRequestResult with
  | .error e => (sink, some e)
  | .ok resp =>
      match ioCopy resp.body env.copyFailAfter with
      | (written, n, copyErr) =>
          match copyErr with
          | some e => (sink ++ written, some e)
          | none =>
              if n = 0 then (sink ++ written, some (url ++ " was empty"))
              else (sink ++ written, none)

/-- A JSON value, as produced and consumed by Go `encoding/json` for the
payload types of this client. -/
inductive JVal where
  | str (s : String) : JVal
  | bool (b : Bool) : JVal
  | arr (xs : List JVal) : JVal
  | obj (fields : List (String × JVal)) : JVal
deriving Repr

/-- Case folding of a JSON object key, for Go's case-insensitive field
matching. -/
def foldKey (s : String) : List Char := s.data.map Char.toLower

/-- Go `encoding/json` key matching on struct decode: an exact match of the
field's marshal key is preferred, else a case-insensitive match. -/
def lookupKey (fs : List (String × JVal)) (k : String) : Option JVal :=
  match fs.find? (fun p => p.1 == k) with
  | some p => some p.2
  | none => (fs.find? (fun p => foldKey p.1 == foldKey k)).map (fun p => p.2)

def decodeString : JVal → Option String
  | .str s => some s
  | _ => none

def decodeBool : JVal → Option Bool
  | .bool b => some b
  | _ => none

def decodeStrings : List JVal → Option (List String)
  | [] => some []
  | j :: rest => do
      let s ← decodeString j
      let ss ← decodeStrings rest
      some (s :: ss)

def decodeStringList : JVal → Option (List String)
  | .arr xs => decodeStrings xs
  | _ => none

/-- Decode one struct field: a missing key keeps the Go zero value, a
present value must decode at the field's type. -/
def decodeFieldOr {α : Type} (fs : List (String × JVal)) (k : String)
    (dec : JVal → Option α) (dflt : α) : Option α :=
  match lookupKey fs k with
  | none => some dflt
  | some j => dec j

/-- `json.Marshal` of `RequestSubmission` (struct tags of `requests.go`
lines 123-129): keys in field order; the `additionalFtfIps,omitempty` field
is omitted entirely when the slice is empty. -/
def marshalRequestSubmission (r : RequestSubmission) : JVal :=
  .obj ([("allTlds", .bool r.AllTLDs),
         ("tldNames", .arr (r.TLDNames.map .str)),
         ("reason", .str r.Reason),
         ("tcVersion", .str r.TcVersion)] ++
        (if r.AdditionalFTPIps.isEmpty then []
         else [("additionalFtfIps", .arr (r.AdditionalFTPIps.map .str))]))

/-- `json.Unmarshal` into `RequestSubmission`: keys matched by struct tag,
missing keys keep the zero value (`false`, nil slice, empty string). -/
def unmarshalRequestSubmission (j : JVal) : Option RequestSubmission :=
  match j with
  | .obj fs => do
      let allTlds ← decodeFieldOr fs "allTlds" decodeBool false
      let tldNames ← decodeFieldOr fs "tldNames" decodeStringList []
      let reason ← decodeFieldOr fs "reason" decodeString ""
      let tcVersion ← decodeFieldOr fs "tcVersion" decodeString ""
      let additionalFtpIps ← decodeFieldOr fs "additionalFtfIps" decodeStringList []
      some { AllTLDs := allTlds, TLDNames := tldNames, Reason := reason,
             TcVersion := tcVersion, AdditionalFTPIps := additionalFtpIps }
  | _ => none

/-- `GetRequests` from `requests.go` (lines 141-145): allocate a zero-valued
`RequestsResponse` and let `jsonAPI` fill it from the remote answer; both
the response and the error are returned. On failure the caller sees the
zero value (a nil `Requests` slice, total 0). -/
def GetRequests (result : Except GoError RequestsResponse) :
    RequestsResponse × Option GoError :=
  match result with
  | .ok r => (r, none)
  | .error e => ({ Requests := none, TotalRequests := 0 }, some e)

/-- Modelled from the spec: the `jsonAPI` invocation capability and the
remote `POST /czds/requests/all` endpoint live outside `requests.go` (the
repository's `client.go` is not under `src/`). Per the spec, a successful
listing on which nothing matches the filter decodes to a present-but-empty
`requests` array — never nil/absent — with `totalRequests` reflecting the
count of matches before pagination. -/
def emptyMatchResponse (totalMatching : Int) : RequestsResponse :=
  { Requests := some [], TotalRequests := totalMatching }

/- Concrete sample data (the spec's end-to-end example: "bank" available,
"app" pending, "xyz" revoked; terms version "v3"). -/

def statusSample : List TLDStatus :=
  [{ TLD := "bank", ULabel := "bank", CurrentStatus := StatusAvailable, SFTP := false },
   { TLD := "app", ULabel := "app", CurrentStatus := StatusPending, SFTP := false },
   { TLD := "xyz", ULabel := "xyz", CurrentStatus := StatusRevoked, SFTP := true }]

def termsSample : Terms :=
  { Version := "v3", Content := "terms text", ContentURL := "https://example.org/terms",
    Created := 0 }

def envSample : RemoteEnv :=
  { tldStatusResult := .ok statusSample, termsResult := .ok termsSample,
    submitResult := none }

def statusNoneEligible : List TLDStatus :=
  [{ TLD := "app", ULabel := "app", CurrentStatus := StatusPending, SFTP := false },
   { TLD := "dev", ULabel := "dev", CurrentStatus := StatusApproved, SFTP := false }]

def envNoneEligible : RemoteEnv :=
  { tldStatusResult := .ok statusNoneEligible, termsResult := .error "terms endpoint down",
    submitResult := some "submit rejected" }

def envSubmitFail : RemoteEnv :=
  { tldStatusResult := .ok statusSample, termsResult := .ok termsSample,
    submitResult := some "rejected: stale tcVersion" }

def envTermsFail : RemoteEnv :=
  { tldStatusResult := .ok statusSample, termsResult := .error "terms endpoint down",
    submitResult := none }

/- Helper lemmas. -/

/-- The accumulation loop of `RequestAllTLDs` is filter-then-project:
it keeps exactly the eligible entries, in input order. -/
theorem collectEligible_eq_filter_map (status : List TLDStatus) :
    collectEligible status =
      (status.filter (fun s => eligibleStatus s.CurrentStatus)).map TLDStatus.TLD := by
  induction status with
  | nil => rfl
  | cons t rest ih =>
      by_cases h : eligibleStatus t.CurrentStatus <;>
        simp [collectEligible, h, ih, List.filter_cons]

theorem collectEligible_eq_nil_iff (status : List TLDStatus) :
    collectEligible status = [] ↔
      ∀ s ∈ status, eligibleStatus s.CurrentStatus = false := by
  rw [collectEligible_eq_filter_map, List.map_eq_nil_iff, List.filter_eq_nil_iff]
  simp

/-- Claim C1: for every sequence of `TLDStatus` entries returned by the
availability listing, `RequestAllTLDs` computes exactly the `TLD` names of
the entries whose `CurrentStatus` is one of available / expired / denied /
revoked, preserving input order with no re-sorting, and the returned
sequence is empty iff no entry is eligible. -/
theorem requestAllTLDs_returns_eligible_in_order (env : RemoteEnv)
    (reason : String) (status : List TLDStatus) (t : Terms)
    (hstat : env.tldStatusResult = .ok status)
    (hterms : env.termsResult = .ok t) :
    (RequestAllTLDs env reason).1.1 =
      some ((status.filter (fun s => eligibleStatus s.CurrentStatus)).map TLDStatus.TLD) ∧
    ((RequestAllTLDs env reason).1.1 = some [] ↔
      ∀ s ∈ status, eligibleStatus s.CurrentStatus = false) := by
  have hres : (RequestAllTLDs env reason).1.1 = some (collectEligible status) := by
    unfold RequestAllTLDs
    rw [hstat]
    by_cases hnil : collectEligible status = [] <;> simp [hnil, hterms]
  constructor
  · rw [hres, collectEligible_eq_filter_map]
  · rw [hres]
    simp [collectEligible_eq_nil_iff]

theorem requestAllTLDs_returns_eligible_in_order_witness :
    (RequestAllTLDs envSample "renewal").1.1 =
      some ((statusSample.filter (fun s => eligibleStatus s.CurrentStatus)).map TLDStatus.TLD) ∧
    ((RequestAllTLDs envSample "renewal").1.1 = some [] ↔
      ∀ s ∈ statusSample, eligibleStatus s.CurrentStatus = false) :=
  requestAllTLDs_returns_eligible_in_order envSample "renewal" statusSample termsSample rfl rfl

/-- Claim C2: in every invocation of `RequestTLDs` or `RequestAllTLDs` that
reaches submission, the `TcVersion` of the submitted `RequestSubmission`
equals the `Version` of the `Terms` fetched by `GetTerms` within that same
invocation (the environment is per-invocation, so no cached value can leak
in). -/
theorem submitted_tcVersion_is_fresh (env : RemoteEnv) (tlds : List String)
    (reason : String) (r : RequestSubmission) :
    (RemoteCall.submitRequest r ∈ (RequestTLDs env tlds reason).2 →
      ∃ t, env.termsResult = .ok t ∧ r.TcVersion = t.Version) ∧
    (RemoteCall.submitRequest r ∈ (RequestAllTLDs env reason).2 →
      ∃ t, env.termsResult = .ok t ∧ r.TcVersion = t.Version) := by
  constructor
  · intro hmem
    unfold RequestTLDs at hmem
    match hterms : env.termsResult with
    | .error e => rw [hterms] at hmem; simp at hmem
    | .ok t =>
        rw [hterms] at hmem
        simp only [List.mem_cons, List.mem_singleton] at hmem
        rcases hmem with h | h
        · exact absurd h (by simp)
        · rcases h with h | h
          · exact ⟨t, rfl, by
              have := RemoteCall.submitRequest.inj h
              rw [this]⟩
          · simp at h
  · intro hmem
    unfold RequestAllTLDs at hmem
    match hstat : env.tldStatusResult with
    | .error e => rw [hstat] at hmem; simp at hmem
    | .ok status =>
        rw [hstat] at hmem
        by_cases hnil : collectEligible status = []
        · simp [hnil] at hmem
        · simp only [hnil, if_false] at hmem
          match hterms : env.termsResult with
          | .error e => rw [hterms] at hmem; simp at hmem
          | .ok t =>
              rw [hterms] at hmem
              simp only [List.mem_cons, List.mem_singleton] at hmem
              rcases hmem with h | h
              · exact absurd h (by simp)
              · rcases h with h | h
                · exact absurd h (by simp)
                · rcases h with h | h
                  · exact ⟨t, rfl, by
                      have := RemoteCall.submitRequest.inj h
                      rw [this]⟩
                  · simp at h

theorem submitted_tcVersion_is_fresh_witness :
    ∃ t, envSample.termsResult = .ok t ∧
      (RequestSubmission.mk true ["bank", "xyz"] "renewal" "v3" []).TcVersion = t.Version :=
  (submitted_tcVersion_is_fresh envSample ["bank"] "renewal"
    (RequestSubmission.mk true ["bank", "xyz"] "renewal" "v3" [])).2 (by decide)

/-- Claim C3: when the filtered eligible set is empty, `RequestAllTLDs`
returns that empty set with no error, and the call trace holds only the
availability listing: `GetTerms` and `SubmitRequest` are never invoked. -/
theorem requestAllTLDs_empty_short_circuits (env : RemoteEnv)
    (reason : String) (status : List TLDStatus)
    (hstat : env.tldStatusResult = .ok status)
    (hempty : collectEligible status = []) :
    RequestAllTLDs env reason = ((some [], none), [.getTLDStatus]) ∧
    RemoteCall.getTerms ∉ (RequestAllTLDs env reason).2 ∧
    ∀ r, RemoteCall.submitRequest r ∉ (RequestAllTLDs env reason).2 := by
  have hres : RequestAllTLDs env reason = ((some [], none), [.getTLDStatus]) := by
    unfold RequestAllTLDs
    rw [hstat]
    simp [hempty]
  refine ⟨hres, ?_, ?_⟩
  · rw [hres]; simp
  · intro r; rw [hres]; simp

theorem requestAllTLDs_empty_short_circuits_witness :
    RequestAllTLDs envNoneEligible "renewal" = ((some [], none), [.getTLDStatus]) ∧
    RemoteCall.getTerms ∉ (RequestAllTLDs envNoneEligible "renewal").2 ∧
    ∀ r, RemoteCall.submitRequest r ∉ (RequestAllTLDs envNoneEligible "renewal").2 :=
  requestAllTLDs_empty_short_circuits envNoneEligible "renewal" statusNoneEligible
    rfl (by decide)

/-- Claim C4: when the eligible set is non-empty, the terms fetch succeeds
and the submission fails, `RequestAllTLDs` returns the submit error
together with the filtered eligible-TLD sequence. -/
theorem requestAllTLDs_submit_failure_reports_tlds (env : RemoteEnv)
    (reason : String) (status : List TLDStatus) (t : Terms) (e : GoError)
    (hstat : env.tldStatusResult = .ok status)
    (hne : collectEligible status ≠ [])
    (hterms : env.termsResult = .ok t)
    (hsub : env.submitResult = some e) :
    (RequestAllTLDs env reason).1 = (some (collectEligible status), some e) := by
  unfold RequestAllTLDs
  rw [hstat]
  simp [hne, hterms, hsub]

theorem requestAllTLDs_submit_failure_reports_tlds_witness :
    (RequestAllTLDs envSubmitFail "renewal").1 =
      (some (collectEligible statusSample), some "rejected: stale tcVersion") :=
  requestAllTLDs_submit_failure_reports_tlds envSubmitFail "renewal" statusSample
    termsSample "rejected: stale tcVersion" rfl (by decide) rfl rfl

/-- Claim C9: when the eligible set is non-empty but the terms fetch fails,
`RequestAllTLDs` returns the terms-fetch error with a nil TLD sequence —
the already-computed eligible set is discarded. -/
theorem requestAllTLDs_terms_failure_discards_tlds (env : RemoteEnv)
    (reason : String) (status : List TLDStatus) (e : GoError)
    (hstat : env.tldStatusResult = .ok status)
    (hne : collectEligible status ≠ [])
    (hterms : env.termsResult = .error e) :
    (RequestAllTLDs env reason).1 = (none, some e) := by
  unfold RequestAllTLDs
  rw [hstat]
  simp [hne, hterms]

theorem requestAllTLDs_terms_failure_discards_tlds_witness :
    (RequestAllTLDs envTermsFail "renewal").1 = (none, some "terms endpoint down") :=
  requestAllTLDs_terms_failure_discards_tlds envTermsFail "renewal" statusSample
    "terms endpoint down" rfl (by decide) rfl

/- Concrete transports for the report download. -/

def respEmpty : HTTPResponse := { body := [] }

def respBytes : HTTPResponse := { body := [65, 66] }

def respThreeBytes : HTTPResponse := { body := [65, 66, 67] }

def envDownErr : DownloadEnv :=
  { BaseURL := "https://czds.icann.org", apiRequestResult := .error "network down",
    copyFailAfter := none }

def envDownEmpty : DownloadEnv :=
  { BaseURL := "https://czds.icann.org", apiRequestResult := .ok respEmpty,
    copyFailAfter := none }

def envDownBytes : DownloadEnv :=
  { BaseURL := "https://czds.icann.org", apiRequestResult := .ok respBytes,
    copyFailAfter := none }

def envDownPartial : DownloadEnv :=
  { BaseURL := "https://czds.icann.org", apiRequestResult := .ok respThreeBytes,
    copyFailAfter := some (1, "connection reset") }

/-- Claim C5: `DownloadAllRequests` propagates a failed remote call; a
successful call whose completed copy moved zero bytes fails with the
empty-report error naming the report URL; a successful call returning at
least one byte succeeds with the sink holding exactly the returned bytes. -/
theorem downloadAllRequests_empty_report_policy :
    (∀ (env : DownloadEnv) (sink : List UInt8) (e : GoError),
      env.apiRequestResult = .error e →
      DownloadAllRequests env sink = (sink, some e)) ∧
    (∀ (env : DownloadEnv) (sink : List UInt8) (resp : HTTPResponse),
      env.apiRequestResult = .ok resp → env.copyFailAfter = none →
      resp.body = [] →
      DownloadAllRequests env sink =
        (sink, some (env.BaseURL ++ "/czds/requests/report" ++ " was empty"))) ∧
    (∀ (env : DownloadEnv) (sink : List UInt8) (resp : HTTPResponse),
      env.apiRequestResult = .ok resp → env.copyFailAfter = none →
      resp.body ≠ [] →
      DownloadAllRequests env sink = (sink ++ resp.body, none)) := by
  refine ⟨?_, ?_, ?_⟩
  · intro env sink e herr
    unfold DownloadAllRequests
    rw [herr]
  · intro env sink resp hok hcopy hbody
    unfold DownloadAllRequests
    rw [hok]
    simp [ioCopy, hcopy, hbody]
  · intro env sink resp hok hcopy hbody
    unfold DownloadAllRequests
    rw [hok]
    simp [ioCopy, hcopy, List.length_eq_zero, hbody]

theorem downloadAllRequests_empty_report_policy_witness :
    DownloadAllRequests envDownErr [] = ([], some "network down") ∧
    DownloadAllRequests envDownEmpty [] =
      ([], some (envDownEmpty.BaseURL ++ "/czds/requests/report" ++ " was empty")) ∧
    DownloadAllRequests envDownBytes [] = ([] ++ respBytes.body, none) :=
  ⟨downloadAllRequests_empty_report_policy.1 envDownErr [] "network down" rfl,
   downloadAllRequests_empty_report_policy.2.1 envDownEmpty [] respEmpty rfl rfl rfl,
   downloadAllRequests_empty_report_policy.2.2 envDownBytes [] respBytes rfl rfl
     (by decide)⟩

/-- Claim C10: `DownloadAllRequests` is not atomic with respect to the
sink: when the copy fails after `k` of the body's bytes, those `k` bytes
remain appended to the sink and the copy error itself is returned — the
zero-byte empty-report check is not reached (even when `k = 0`). -/
theorem downloadAllRequests_partial_copy_not_atomic (env : DownloadEnv)
    (sink : List UInt8) (resp : HTTPResponse) (k : Nat) (e : GoError)
    (hok : env.apiRequestResult = .ok resp)
    (hfail : env.copyFailAfter = some (k, e))
    (hk : k < resp.body.length) :
    DownloadAllRequests env sink = (sink ++ resp.body.take k, some e) := by
  unfold DownloadAllRequests
  rw [hok]
  simp [ioCopy, hfail, hk]

theorem downloadAllRequests_partial_copy_not_atomic_witness :
    DownloadAllRequests envDownPartial [] =
      ([] ++ respThreeBytes.body.take 1, some "connection reset") :=
  downloadAllRequests_partial_copy_not_atomic envDownPartial [] respThreeBytes 1
    "connection reset" rfl rfl (by decide)

/- JSON round-trip helpers and samples. -/

theorem decodeStrings_map_str (xs : List String) :
    decodeStrings (xs.map JVal.str) = some xs := by
  induction xs with
  | nil => rfl
  | cons x xs ih => simp [decodeStrings, decodeString, ih]

/- Case-insensitive key comparisons arising from Go key matching: none of
the four always-present marshal keys matches `additionalFtfIps`. -/

theorem allTlds_not_ftf : (foldKey "allTlds" == foldKey "additionalFtfIps") = false := by
  decide

theorem tldNames_not_ftf : (foldKey "tldNames" == foldKey "additionalFtfIps") = false := by
  decide

theorem reason_not_ftf : (foldKey "reason" == foldKey "additionalFtfIps") = false := by
  decide

theorem tcVersion_not_ftf : (foldKey "tcVersion" == foldKey "additionalFtfIps") = false := by
  decide

def submissionNoIps : RequestSubmission :=
  { AllTLDs := false, TLDNames := ["bank"], Reason := "renewal",
    TcVersion := "v3", AdditionalFTPIps := [] }

def submissionWithIps : RequestSubmission :=
  { AllTLDs := false, TLDNames := ["bank"], Reason := "renewal",
    TcVersion := "v3", AdditionalFTPIps := ["192.0.2.1"] }

/-- A payload spelled with the key `additionalFtpIps` instead of the struct
tag `additionalFtfIps`. -/
def wrongKeyPayload : List (String × JVal) :=
  [("allTlds", .bool false), ("tldNames", .arr [.str "bank"]),
   ("reason", .str "renewal"), ("tcVersion", .str "v3"),
   ("additionalFtpIps", .arr [.str "192.0.2.1"])]

/-- Claim C6: a `RequestSubmission` with empty `AdditionalFTPIps` encodes
with the additional-FTP-IPs field omitted entirely (the object's keys are
exactly the other four), and decoding the encoding yields the original
value. -/
theorem requestSubmission_omits_empty_ftp_ips (r : RequestSubmission)
    (h : r.AdditionalFTPIps = []) :
    (∃ fs, marshalRequestSubmission r = .obj fs ∧
        fs.map Prod.fst = ["allTlds", "tldNames", "reason", "tcVersion"]) ∧
    unmarshalRequestSubmission (marshalRequestSubmission r) = some r := by
  obtain ⟨a, ns, rs, tc, ips⟩ := r
  have hips : ips = [] := h
  subst hips
  constructor
  · exact ⟨_, rfl, rfl⟩
  · simp [marshalRequestSubmission, unmarshalRequestSubmission, decodeFieldOr,
      lookupKey, List.find?, decodeBool, decodeString, decodeStringList,
      decodeStrings_map_str, allTlds_not_ftf, tldNames_not_ftf,
      reason_not_ftf, tcVersion_not_ftf]

theorem requestSubmission_omits_empty_ftp_ips_witness :
    (∃ fs, marshalRequestSubmission submissionNoIps = .obj fs ∧
        fs.map Prod.fst = ["allTlds", "tldNames", "reason", "tcVersion"]) ∧
    unmarshalRequestSubmission (marshalRequestSubmission submissionNoIps) =
      some submissionNoIps :=
  requestSubmission_omits_empty_ftp_ips submissionNoIps rfl

/-- Claim C8: a `RequestSubmission` with non-empty `AdditionalFTPIps`
encodes that sequence under the key `additionalFtfIps` — not
`additionalFtpIps` — and decoding any object that carries no
`additionalFtfIps` key (under Go key matching, exact or case-insensitive)
leaves `AdditionalFTPIps` empty. -/
theorem requestSubmission_ftf_key_typo (r : RequestSubmission)
    (h : r.AdditionalFTPIps ≠ []) :
    (∃ fs, marshalRequestSubmission r = .obj fs ∧
        fs.lookup "additionalFtfIps" =
          some (.arr (r.AdditionalFTPIps.map .str)) ∧
        fs.lookup "additionalFtpIps" = none) ∧
    (∀ (fs : List (String × JVal)) (r' : RequestSubmission),
      lookupKey fs "additionalFtfIps" = none →
      unmarshalRequestSubmission (.obj fs) = some r' →
      r'.AdditionalFTPIps = []) := by
  constructor
  · refine ⟨_, rfl, ?_, ?_⟩ <;>
      simp [List.lookup, h, List.isEmpty_iff]
  · intro fs r' hnone hdec
    simp only [unmarshalRequestSubmission, decodeFieldOr, hnone,
      Option.bind_eq_bind, Option.bind_eq_some, Option.some.injEq] at hdec
    obtain ⟨a, -, b, -, c, -, d, -, e, he, hr'⟩ := hdec
    subst he
    rw [← hr']

theorem requestSubmission_ftf_key_typo_witness :
    (∃ fs, marshalRequestSubmission submissionWithIps = .obj fs ∧
        fs.lookup "additionalFtfIps" =
          some (.arr (submissionWithIps.AdditionalFTPIps.map .str)) ∧
        fs.lookup "additionalFtpIps" = none) ∧
    (RequestSubmission.mk false ["bank"] "renewal" "v3" []).AdditionalFTPIps = [] :=
  ⟨(requestSubmission_ftf_key_typo submissionWithIps (by decide)).1,
   (requestSubmission_ftf_key_typo submissionWithIps (by decide)).2
     wrongKeyPayload (RequestSubmission.mk false ["bank"] "renewal" "v3" [])
     (by rfl) (by rfl)⟩

/-- Claim C7: a successful `GetRequests` whose filter matches nothing on
the page yields a present-and-empty `Requests` sequence — never nil/absent
— with no error, and `TotalRequests` carries the unfiltered-by-page
matching count, which is at least (and can exceed) the number of items on
the returned page. -/
theorem getRequests_empty_match_present (n : Int) (hn : 0 ≤ n) :
    (GetRequests (.ok (emptyMatchResponse n))).2 = none ∧
    (GetRequests (.ok (emptyMatchResponse n))).1.Requests = some [] ∧
    (GetRequests (.ok (emptyMatchResponse n))).1.TotalRequests = n ∧
    (((GetRequests (.ok (emptyMatchResponse n))).1.Requests.getD []).length : Int) ≤ n := by
  refine ⟨rfl, rfl, rfl, ?_⟩
  simpa [GetRequests, emptyMatchResponse] using hn

theorem getRequests_empty_match_present_witness :
    (GetRequests (.ok (emptyMatchResponse 5))).2 = none ∧
    (GetRequests (.ok (emptyMatchResponse 5))).1.Requests = some [] ∧
    (GetRequests (.ok (emptyMatchResponse 5))).1.TotalRequests = 5 ∧
    (((GetRequests (.ok (emptyMatchResponse 5))).1.Requests.getD []).length : Int) ≤ 5 :=
  getRequests_empty_match_present 5 (by decide)
